import Mathlib

/-!
Verification of the WebDNN runtime dispatcher (src/descriptor_runner/webdnn.ts)
and the GPU crash tracker of the demo application (src/scripts/resnet50.ts).

Backend names are modelled as strings, exactly as they exist at JavaScript
runtime.  The behaviour of the per-backend runner constructors (which live
outside this slice) is abstracted into an environment record `Env` giving,
for each backend name, whether its static availability check succeeds,
whether construction plus init() succeeds, and whether load() succeeds.
-/

/-- Environment abstraction for the three runner classes referenced by the
registry: per backend name, the outcome of checkAvailability(), of
construction + init(), and of runner.load(). -/
structure Env where
  available : String → Bool
  initOk : String → Bool
  loadOk : String → Bool

/-- Mirrors the TypeScript object literal with the three fixed keys in
BackendAvailability.status (webdnn.ts lines 78-82). -/
structure BackendStatus where
  webgpu : Bool
  webassembly : Bool
  fallback : Bool
deriving DecidableEq, Repr

/-- Reading status[k] for the three keys present in the status object. -/
def statusGet (s : BackendStatus) (k : String) : Bool :=
  if k = "webgpu" then s.webgpu
  else if k = "webassembly" then s.webassembly
  else if k = "fallback" then s.fallback
  else false

/-- Result structure of getBackendAvailability (webdnn.ts lines 41-69). -/
structure BackendAvailability where
  status : BackendStatus
  defaultOrder : List String
deriving DecidableEq, Repr

/-- Embedding of getBackendAvailability (webdnn.ts lines 77-90): the status
object queries checkAvailability of each registered runner class, and the
default order is the fixed list filtered by status. -/
def getBackendAvailability (env : Env) : BackendAvailability :=
  let status : BackendStatus :=
    { webgpu := env.available "webgpu"
      webassembly := env.available "webassembly"
      fallback := env.available "fallback" }
  let order := (["webgpu", "webassembly", "fallback"]).filter (fun backend => statusGet status backend)
  { status := status, defaultOrder := order }

/-- Own-key membership in the descriptorRunners registry (webdnn.ts lines
32-36): the object literal has exactly the three backend names as its own
keys. -/
def inRegistry (backendName : String) : Bool :=
  backendName == "webgpu" || backendName == "webassembly" || backendName == "fallback"

/-- Property names a plain JavaScript object literal inherits from
Object.prototype, all visible to the in operator. -/
def objectPrototypeKeys : List String :=
  ["constructor", "hasOwnProperty", "isPrototypeOf", "propertyIsEnumerable",
   "toLocaleString", "toString", "valueOf", "__proto__",
   "__defineGetter__", "__defineSetter__", "__lookupGetter__", "__lookupSetter__"]

/-- The JavaScript test (backendName in descriptorRunners) on webdnn.ts
line 97.  The in operator traverses the prototype chain, so besides the
three own keys it is also true for every property name inherited from
Object.prototype. -/
def jsInDescriptorRunners (backendName : String) : Bool :=
  inRegistry backendName || objectPrototypeKeys.contains backendName

/-- State of a DescriptorRunner as far as the orchestrator observes it:
which backend it belongs to, the ignoreCache flag the orchestrator sets,
and whether its load() call has succeeded. -/
structure Runner where
  backendName : String
  ignoreCache : Bool
  loaded : Bool
deriving DecidableEq, Repr

/-- Embedding of initBackend (webdnn.ts lines 96-110).  A name for which
the in test fails throws (Except.error, rejecting the promise).  For one
of the three own keys, construction and init() run: a failure is caught,
a warning is logged and null is returned (Except.ok Option.none),
otherwise the fresh runner is returned.  For a name the in test accepts
only via the prototype chain, descriptorRunners[backendName] resolves to
an inherited Object.prototype member which is not a runner class, so the
new expression or the subsequent runner.init() throws a TypeError inside
the try (toString is not a constructor; new Object(option) has no init
method) and the catch turns it into null, exactly like an init failure.
The backend-specific option blob is opaque and has no observable effect,
so it is not modelled. -/
def initBackend (env : Env) (backendName : String) : Except String (Option Runner) :=
  if ¬ jsInDescriptorRunners backendName then
    Except.error ("Unknown backend: \"" ++ backendName ++ "\"")
  else if inRegistry backendName then
    if env.initOk backendName then
      Except.ok (some { backendName := backendName, ignoreCache := false, loaded := false })
    else
      Except.ok Option.none
  else
    Except.ok Option.none

/-- The backendOrder field of InitOption (webdnn.ts line 119): absent, a
single backend name, or an array of backend names. -/
inductive BackendOrderOpt
  | undef
  | single (s : String)
  | arr (l : List String)
deriving DecidableEq, Repr

/-- Option structure of load (webdnn.ts lines 115-147), restricted to the
fields the orchestrator logic reads. -/
structure InitOption where
  backendOrder : BackendOrderOpt
  ignoreCache : Option Bool
deriving DecidableEq, Repr

/-- JavaScript Array.prototype.indexOf, returning -1 when absent. -/
def jsIndexOf (l : List String) (a : String) : Int :=
  if a ∈ l then (l.indexOf a : Int) else -1

/-- Embedding of the order normalization in load (webdnn.ts lines 180-187).
Line 187 reads: if (backendOrder.indexOf('fallback') === -1)
backendOrder.concat(['fallback']); — concat returns a NEW array and its
result is discarded, so the statement has no effect on backendOrder; the
discarded value is kept here as an unused binding to mirror the source. -/
def computeOrder (opt : InitOption) : List String :=
  let backendOrder :=
    match opt.backendOrder with
    | BackendOrderOpt.undef => ["webgpu", "webassembly"]
    | BackendOrderOpt.single s => [s]
    | BackendOrderOpt.arr l => l
  let backendOrder := backendOrder
  let _ := if jsIndexOf backendOrder "fallback" = -1
           then backendOrder ++ ["fallback"] else backendOrder
  backendOrder

/-- Embedding of the while loop of load (webdnn.ts lines 191-206), with the
already-shifted remainder of backendOrder as explicit argument.  An
exception from initBackend propagates (no surrounding try).  A null runner
means continue.  Otherwise ignoreCache is set, runner.load is attempted
inside try/catch — and the return statement on line 203 sits OUTSIDE the
try block, so the runner is returned whether or not its load succeeded.
When the loop exhausts the order, line 206 throws. -/
def loadLoop (env : Env) (ignoreCache : Bool) : List String → Except String Runner
  | [] => Except.error "No backend is available"
  | backendName :: rest =>
    match initBackend env backendName with
    | Except.error e => Except.error e
    | Except.ok Option.none => loadLoop env ignoreCache rest
    | Except.ok (some runner) =>
      let runner := { runner with ignoreCache := ignoreCache }
      let runner := if env.loadOk backendName then { runner with loaded := true } else runner
      Except.ok runner

/-- Embedding of load (webdnn.ts lines 179-207). -/
def load (env : Env) (opt : InitOption) : Except String Runner :=
  loadLoop env (opt.ignoreCache.getD false) (computeOrder opt)

/-!
Heap-level embedding of load, used to settle the frame property about the
caller's InitOption.backendOrder array.  JavaScript arrays are mutable
heap objects: slice() allocates a fresh copy and shift() mutates in place,
so aliasing matters and is modelled explicitly by a heap of array cells.
-/

/-- Heap of JavaScript array objects; an array reference is an index. -/
abbrev Heap := List (List String)

/-- Dereference an array reference. -/
def heapRead (h : Heap) (r : Nat) : List String := (h[r]?).getD []

/-- In-place update of the array behind a reference. -/
def heapWrite (h : Heap) (r : Nat) (a : List String) : Heap := h.set r a

/-- Allocate a fresh array object, returning the new heap and reference. -/
def heapAlloc (h : Heap) (a : List String) : Heap × Nat := (h ++ [a], h.length)

/-- InitOption at heap level: a backendOrder array is a heap reference. -/
structure InitOptionH where
  backendOrder : Option (Sum String Nat)
  ignoreCache : Option Bool

/-- Heap-level embedding of the while loop of load (webdnn.ts lines
191-206): the loop guard reads the length of the array behind reference r,
and shift() (line 192) removes the head of that array in place.  The fuel
argument bounds the iteration count; it is passed the current length of
the array, which strictly decreases with every shift. -/
def loadLoopH (env : Env) (ignoreCache : Bool) (r : Nat) : Nat → Heap → Heap × Except String Runner
  | 0, h => (h, Except.error "No backend is available")
  | fuel + 1, h =>
    match heapRead h r with
    | [] => (h, Except.error "No backend is available")
    | backendName :: rest =>
      let h := heapWrite h r rest
      match initBackend env backendName with
      | Except.error e => (h, Except.error e)
      | Except.ok Option.none => loadLoopH env ignoreCache r fuel h
      | Except.ok (some runner) =>
        let runner := { runner with ignoreCache := ignoreCache }
        let runner := if env.loadOk backendName then { runner with loaded := true } else runner
        (h, Except.ok runner)

/-- Heap-level embedding of load (webdnn.ts lines 179-207).  An absent or
string backendOrder makes the code build a fresh array (lines 182/184);
line 186 reassigns backendOrder to a slice() copy, a freshly allocated
array; line 187 evaluates concat (which allocates nothing observable here)
and discards its result.  The loop then consumes the copy. -/
def loadH (env : Env) (opt : InitOptionH) (h : Heap) : Heap × Except String Runner :=
  let hr :=
    match opt.backendOrder with
    | Option.none => heapAlloc h ["webgpu", "webassembly"]
    | some (Sum.inl s) => heapAlloc h [s]
    | some (Sum.inr r) => (h, r)
  let hr2 := heapAlloc hr.1 (heapRead hr.1 hr.2)
  let h2 := hr2.1
  let r := hr2.2
  let _ := if jsIndexOf (heapRead h2 r) "fallback" = -1
           then heapRead h2 r ++ ["fallback"] else heapRead h2 r
  loadLoopH env (opt.ignoreCache.getD false) r (heapRead h2 r).length h2

/-!
Embedding of the GPU crash tracker in the demo application
(src/scripts/resnet50.ts).  localStorage holds two string-valued keys,
webgpu_last_status and flag_webgpu_disabled_alert; an absent key reads as
null, modelled by Option String.
-/

/-- The two persisted localStorage entries used by resnet50.ts. -/
structure Store where
  webgpuLastStatus : Option String
  flagWebgpuDisabledAlert : Option String
deriving DecidableEq, Repr

/-- JavaScript (localStorage.getItem(k) || 'none'): null and the empty
string are falsy and give 'none' (resnet50.ts line 129). -/
def jsOrNone (v : Option String) : String :=
  match v with
  | Option.none => "none"
  | some s => if s = "" then "none" else s

/-- JavaScript truthiness of a getItem result (resnet50.ts line 143). -/
def jsTruthy (v : Option String) : Bool :=
  match v with
  | Option.none => false
  | some s => s != ""

/-- JavaScript Array.prototype.splice(start, 1): a negative start counts
from the end, a start beyond the length removes nothing. -/
def spliceRemove (l : List String) (start : Int) : List String :=
  let s : Nat := if start < 0 then (max ((l.length : Int) + start) 0).toNat
                 else min start.toNat l.length
  l.take s ++ l.drop (s + 1)

/-- Observable outcome of the crash-tracker part of App.initialize:
the persisted store, the (mutated) availability structure, the in-memory
lastStatus field, and whether the one-time alert was shown. -/
structure SessionInit where
  store : Store
  availability : BackendAvailability
  lastStatus : String
  alertShown : Bool
deriving DecidableEq, Repr

/-- Embedding of the session-start crash check of App.initialize
(resnet50.ts lines 127-152).  Only when webgpu is available is the
persisted status read (with null coalescing to 'none'); on 'running' or
'crashed' the webgpu entry is disabled, webgpu is spliced out of
defaultOrder, 'crashed' is written back, and the alert fires only when
the separate flag is unset, in which case the flag is set to '1'.
The cases 'none' and 'completed' (and any other string, the switch
default) change nothing.  The in-memory field this.lastStatus keeps the
value read on line 129 (its initializer is the empty string). -/
def sessionStart (store : Store) (availability : BackendAvailability) : SessionInit :=
  if availability.status.webgpu then
    let lastStatus := jsOrNone store.webgpuLastStatus
    if lastStatus = "running" ∨ lastStatus = "crashed" then
      let availability2 : BackendAvailability :=
        { status := { availability.status with webgpu := false }
          defaultOrder := spliceRemove availability.defaultOrder
            (jsIndexOf availability.defaultOrder "webgpu") }
      let store2 : Store := { store with webgpuLastStatus := some "crashed" }
      let alertShown := ! jsTruthy store2.flagWebgpuDisabledAlert
      let store3 := if alertShown then { store2 with flagWebgpuDisabledAlert := some "1" } else store2
      { store := store3, availability := availability2, lastStatus := lastStatus, alertShown := alertShown }
    else
      { store := store, availability := availability, lastStatus := lastStatus, alertShown := false }
  else
    { store := store, availability := availability, lastStatus := "", alertShown := false }

/-- Observable outcome of App.predict (resnet50.ts lines 244-258): the
persisted store, the in-memory lastStatus, the ordered sequence of values
written to the webgpu_last_status key during this call, and whether the
call resolved (run() rejecting makes predict reject before the
'completed' write). -/
structure PredictResult where
  store : Store
  lastStatus : String
  writes : List String
  resolved : Bool
deriving DecidableEq, Repr

/-- Embedding of the crash-tracker part of App.predict (resnet50.ts lines
244-258).  Before run(): if the runner is the webgpu one and the in-memory
lastStatus is 'none', write 'running' (the arm step).  Then run() is
awaited; if it rejects, predict rejects here and the rest is skipped.
After a successful run(): if the runner is the webgpu one and lastStatus
is 'running', write 'completed'. -/
def predict (store : Store) (lastStatus : String) (backendName : String) (runOk : Bool) : PredictResult :=
  let armed := backendName = "webgpu" ∧ lastStatus = "none"
  let store1 := if armed then { store with webgpuLastStatus := some "running" } else store
  let last1 := if armed then "running" else lastStatus
  let writes1 := if armed then ["running"] else []
  if runOk then
    let fin := backendName = "webgpu" ∧ last1 = "running"
    let store2 := if fin then { store1 with webgpuLastStatus := some "completed" } else store1
    let last2 := if fin then "completed" else last1
    let writes2 := if fin then writes1 ++ ["completed"] else writes1
    { store := store2, lastStatus := last2, writes := writes2, resolved := true }
  else
    { store := store1, lastStatus := last1, writes := writes1, resolved := false }

/-- Allowed value transitions of the persisted GPU crash status. -/
def allowedEdge (a b : String) : Prop :=
  (a = "none" ∧ b = "running") ∨ (a = "running" ∧ b = "completed") ∨ (a = "running" ∧ b = "crashed")

/-- A sequence of persisted writes forms a chain of allowed transitions
starting from a given status value. -/
def allowedPath : String → List String → Prop
  | _, [] => True
  | a, b :: rest => allowedEdge a b ∧ allowedPath b rest

/-!
Theorems settling the claims.
-/

/-- C1, counterexample: at a concrete input where the webgpu backend
initializes but its load() rejects, load resolves with that runner anyway
(its loaded field still false): the return statement on webdnn.ts line 203
is outside the try/catch, so the partially-initialized runner is handed to
the caller instead of being discarded in favor of the next kind. -/
theorem load_returns_runner_after_load_failure :
    load { available := fun _ => true, initOk := fun b => b == "webgpu", loadOk := fun _ => false }
         { backendOrder := BackendOrderOpt.single "webgpu", ignoreCache := Option.none }
      = Except.ok { backendName := "webgpu", ignoreCache := false, loaded := false } := by
  rfl

/-- C2, counterexample: with caller order consisting only of webgpu, the
attempted order stays a single element — the concat result on webdnn.ts
line 187 is discarded, so fallback is never appended — and when webgpu
fails init() while the fallback backend would initialize and load
perfectly, load still rejects with the exhaustion error instead of ever
attempting fallback. -/
theorem load_never_appends_fallback :
    computeOrder { backendOrder := BackendOrderOpt.arr ["webgpu"], ignoreCache := Option.none }
      = ["webgpu"]
    ∧ load { available := fun _ => true, initOk := fun b => b == "fallback", loadOk := fun _ => true }
           { backendOrder := BackendOrderOpt.arr ["webgpu"], ignoreCache := Option.none }
        = Except.error "No backend is available" := by
  exact ⟨rfl, rfl⟩

/-- C4: a registered backend whose construction or init() fails makes the
loop log and move on: the loop over that kind followed by the remaining
kinds equals the loop over the remaining kinds alone, so the individual
failure never aborts the sequence nor reaches the caller. -/
theorem load_skips_failed_init_backend :
    ∀ (env : Env) (ic : Bool) (backendName : String) (rest : List String),
      inRegistry backendName = true → env.initOk backendName = false →
      loadLoop env ic (backendName :: rest) = loadLoop env ic rest := by
  intro env ic backendName rest hreg hinit
  simp [loadLoop, initBackend, jsInDescriptorRunners, hreg, hinit]

/-- Witness for C4: webgpu failing init() is skipped and the loop settles
on the fallback backend. -/
theorem load_skips_failed_init_backend_witness :
    inRegistry "webgpu" = true
    ∧ loadLoop { available := fun _ => true, initOk := fun b => b == "fallback", loadOk := fun _ => true }
        false ["webgpu", "fallback"]
      = loadLoop { available := fun _ => true, initOk := fun b => b == "fallback", loadOk := fun _ => true }
        false ["fallback"] :=
  ⟨by decide,
   load_skips_failed_init_backend
     { available := fun _ => true, initOk := fun b => b == "fallback", loadOk := fun _ => true }
     false "webgpu" ["fallback"] (by decide) (by decide)⟩

/-- C5: getBackendAvailability reports a status over all three backend
kinds and a defaultOrder equal to the fixed preference list filtered to
the kinds whose status is true; consequently a kind with status false is
never in defaultOrder, and defaultOrder is a sublist of the fixed
preference list, preserving relative order. -/
theorem getBackendAvailability_defaultOrder_spec :
    ∀ env : Env,
      (getBackendAvailability env).defaultOrder
          = (["webgpu", "webassembly", "fallback"]).filter
              (fun k => statusGet (getBackendAvailability env).status k)
      ∧ (∀ k, statusGet (getBackendAvailability env).status k = false →
          k ∉ (getBackendAvailability env).defaultOrder)
      ∧ (getBackendAvailability env).defaultOrder.Sublist ["webgpu", "webassembly", "fallback"] := by
  intro env
  refine ⟨rfl, ?_, ?_⟩
  · intro k hk hmem
    have : statusGet (getBackendAvailability env).status k = true :=
      List.of_mem_filter hmem
    rw [hk] at this
    exact Bool.false_ne_true this
  · exact List.filter_sublist _

/-- Helper: over a list of registered backend names, the loop errs exactly
when every candidate fails init(), and the only error value it can produce
is the exhaustion message — individual init failures surface as null
runners that the loop silently skips. -/
lemma loadLoop_error_char (env : Env) (ic : Bool) :
    ∀ l : List String, (∀ b ∈ l, inRegistry b = true) →
      (((∃ e, loadLoop env ic l = Except.error e) ↔ (∀ b ∈ l, env.initOk b = false))
       ∧ (∀ e, loadLoop env ic l = Except.error e → e = "No backend is available")) := by
  intro l
  induction l with
  | nil => intro _; simp [loadLoop]
  | cons b rest ih =>
    intro hreg
    have hb : inRegistry b = true := hreg b (List.mem_cons_self b rest)
    have hrest : ∀ x ∈ rest, inRegistry x = true :=
      fun x hx => hreg x (List.mem_cons_of_mem _ hx)
    have IH := ih hrest
    by_cases hi : env.initOk b
    · constructor
      · simp [loadLoop, initBackend, jsInDescriptorRunners, hb, hi]
      · intro e he
        simp [loadLoop, initBackend, jsInDescriptorRunners, hb, hi] at he
    · constructor
      · rw [show loadLoop env ic (b :: rest) = loadLoop env ic rest by
              simp [loadLoop, initBackend, jsInDescriptorRunners, hb, hi]]
        constructor
        · intro hex
          intro x hx
          rcases List.mem_cons.mp hx with h | h
          · simpa [h] using hi
          · exact (IH.1.mp hex) x h
        · intro hall
          exact IH.1.mpr (fun x hx => hall x (List.mem_cons_of_mem _ hx))
      · intro e he
        rw [show loadLoop env ic (b :: rest) = loadLoop env ic rest by
              simp [loadLoop, initBackend, jsInDescriptorRunners, hb, hi]] at he
        exact IH.2 e he

/-- C3: when every name of the computed order is registered, load rejects
exactly when every candidate fails init() (the order is exhausted with no
success), and in that case the error is the exhaustion message — so no
individual backend init failure is ever the error surfaced to the caller. -/
theorem load_exhaustion_error_spec :
    ∀ (env : Env) (opt : InitOption),
      (∀ b ∈ computeOrder opt, inRegistry b = true) →
      (((∃ e, load env opt = Except.error e) ↔ (∀ b ∈ computeOrder opt, env.initOk b = false))
       ∧ (∀ e, load env opt = Except.error e → e = "No backend is available")) := by
  intro env opt hreg
  exact loadLoop_error_char env (opt.ignoreCache.getD false) (computeOrder opt) hreg

/-- Witness for C3: with the default order and every backend failing
init(), load rejects, and the error is the exhaustion message. -/
theorem load_exhaustion_error_witness :
    load { available := fun _ => true, initOk := fun _ => false, loadOk := fun _ => true }
        { backendOrder := BackendOrderOpt.undef, ignoreCache := Option.none }
      = Except.error "No backend is available" := by
  obtain ⟨e, he⟩ :=
    (load_exhaustion_error_spec
      { available := fun _ => true, initOk := fun _ => false, loadOk := fun _ => true }
      { backendOrder := BackendOrderOpt.undef, ignoreCache := Option.none }
      (by decide)).1.mpr (by decide)
  have := (load_exhaustion_error_spec
      { available := fun _ => true, initOk := fun _ => false, loadOk := fun _ => true }
      { backendOrder := BackendOrderOpt.undef, ignoreCache := Option.none }
      (by decide)).2 e he
  rw [this] at he
  exact he

/-- Helper frame lemma: the loop mutates only the array cell it consumes;
every other heap cell keeps its contents. -/
lemma loadLoopH_frame (env : Env) (ic : Bool) (r : Nat) :
    ∀ (fuel : Nat) (h : Heap) (rc : Nat), rc ≠ r →
      heapRead (loadLoopH env ic r fuel h).1 rc = heapRead h rc := by
  intro fuel
  induction fuel with
  | zero => intro h rc _; rfl
  | succ n ih =>
    intro h rc hne
    show heapRead (loadLoopH env ic r (n + 1) h).1 rc = heapRead h rc
    rw [loadLoopH]
    have hw : ∀ a : List String, heapRead (heapWrite h r a) rc = heapRead h rc := by
      intro a
      simp [heapRead, heapWrite, List.getElem?_set_ne (fun he => hne he.symm)]
    cases hh : heapRead h r with
    | nil => rfl
    | cons backendName rest =>
      cases hib : initBackend env backendName with
      | error e => simpa [hib] using hw rest
      | ok o =>
        cases o with
        | none => simpa [hib] using (ih (heapWrite h r rest) rc hne).trans (hw rest)
        | some runner => simpa [hib] using hw rest

/-- C10: when the caller supplies a backendOrder array, load consumes a
slice() copy allocated at a fresh reference, so after load settles
(resolving or rejecting alike) the caller's array cell holds the same
elements in the same order as before the call. -/
theorem load_preserves_caller_backendOrder :
    ∀ (env : Env) (opt : InitOptionH) (h : Heap) (rc : Nat),
      opt.backendOrder = some (Sum.inr rc) → rc < h.length →
      heapRead (loadH env opt h).1 rc = heapRead h rc := by
  intro env opt h rc hopt hrc
  have hfresh : rc ≠ h.length := Nat.ne_of_lt hrc
  have happ : heapRead (h ++ [heapRead h rc]) rc = heapRead h rc := by
    simp [heapRead, List.getElem?_append_left hrc]
  calc heapRead (loadH env opt h).1 rc
      = heapRead (h ++ [heapRead h rc]) rc := by
        rw [loadH, hopt]
        exact loadLoopH_frame env (opt.ignoreCache.getD false) h.length _ _ rc hfresh
    _ = heapRead h rc := happ

/-- Witness for C10: a concrete heap holding the caller's two-element
order survives a complete load run unchanged. -/
theorem load_preserves_caller_backendOrder_witness :
    heapRead
        (loadH { available := fun _ => true, initOk := fun _ => false, loadOk := fun _ => true }
          { backendOrder := some (Sum.inr 0), ignoreCache := Option.none }
          [["webgpu", "webassembly"]]).1 0
      = ["webgpu", "webassembly"] := by
  have := load_preserves_caller_backendOrder
    { available := fun _ => true, initOk := fun _ => false, loadOk := fun _ => true }
    { backendOrder := some (Sum.inr 0), ignoreCache := Option.none }
    [["webgpu", "webassembly"]] 0 rfl (by decide)
  rw [this]
  rfl

/-- Helper: in the session-start branch taken on a persisted status of
running or crashed, the persisted status afterwards reads crashed. -/
lemma sessionStart_store_crashed (store : Store) (avail : BackendAvailability)
    (hw : avail.status.webgpu = true)
    (hrc : jsOrNone store.webgpuLastStatus = "running" ∨ jsOrNone store.webgpuLastStatus = "crashed") :
    (sessionStart store avail).store.webgpuLastStatus = some "crashed" := by
  simp only [sessionStart, hw, if_true, hrc]
  split <;> rfl

/-- Helper: outside that branch, session start leaves the store alone. -/
lemma sessionStart_store_id (store : Store) (avail : BackendAvailability)
    (h : avail.status.webgpu = false
      ∨ (jsOrNone store.webgpuLastStatus ≠ "running" ∧ jsOrNone store.webgpuLastStatus ≠ "crashed")) :
    (sessionStart store avail).store = store
    ∧ (sessionStart store avail).availability = avail
    ∧ (sessionStart store avail).alertShown = false := by
  rcases h with h | ⟨h1, h2⟩
  · simp [sessionStart, h]
  · by_cases hw : avail.status.webgpu = true
    · have hrc : ¬ (jsOrNone store.webgpuLastStatus = "running"
          ∨ jsOrNone store.webgpuLastStatus = "crashed") := by
        intro hc; rcases hc with hc | hc
        · exact h1 hc
        · exact h2 hc
      simp [sessionStart, hw, hrc]
    · simp [sessionStart, Bool.eq_false_iff.mpr hw]

/-- Helper: a session whose one-time alert flag is already set never shows
the alert again. -/
lemma sessionStart_no_alert_when_flagged (store : Store) (avail : BackendAvailability)
    (hf : jsTruthy store.flagWebgpuDisabledAlert = true) :
    (sessionStart store avail).alertShown = false := by
  by_cases hw : avail.status.webgpu = true
  · by_cases hrc : jsOrNone store.webgpuLastStatus = "running"
        ∨ jsOrNone store.webgpuLastStatus = "crashed"
    · simp [sessionStart, hw, hrc, hf]
    · simp [sessionStart, hw, hrc]
  · simp [sessionStart, Bool.eq_false_iff.mpr hw]

/-- C6: the persisted GPU crash status only moves along the allowed
transitions.  Session start either keeps the status value or takes an
allowed edge, and it produces the value crashed from a different value
only when it observed running.  Each predict call emits a chain of writes
that is an allowed path from the persisted value (assuming the in-memory
lastStatus mirrors the persisted value whenever the webgpu runner is in
use): the arm write of running happens exactly when the webgpu run begins
at status none, and completed is written exactly when run() resolves while
the status is running (directly or via the arm step); predict never writes
crashed.  Finally a session that starts at completed leaves the store and
availability untouched, so webgpu stays eligible. -/
theorem crash_status_transition_invariant :
    (∀ (store : Store) (avail : BackendAvailability),
        jsOrNone (sessionStart store avail).store.webgpuLastStatus = jsOrNone store.webgpuLastStatus
        ∨ allowedEdge (jsOrNone store.webgpuLastStatus)
            (jsOrNone (sessionStart store avail).store.webgpuLastStatus))
    ∧ (∀ (store : Store) (avail : BackendAvailability),
        jsOrNone store.webgpuLastStatus ≠ "crashed" →
        jsOrNone (sessionStart store avail).store.webgpuLastStatus = "crashed" →
        jsOrNone store.webgpuLastStatus = "running")
    ∧ (∀ (store : Store) (lastStatus backendName : String) (runOk : Bool),
        (backendName = "webgpu" → lastStatus = jsOrNone store.webgpuLastStatus) →
        allowedPath (jsOrNone store.webgpuLastStatus)
          (predict store lastStatus backendName runOk).writes)
    ∧ (∀ (store : Store) (lastStatus backendName : String) (runOk : Bool),
        (predict store lastStatus backendName runOk).writes
          = (if backendName = "webgpu" ∧ lastStatus = "none" then ["running"] else [])
            ++ (if runOk = true ∧ backendName = "webgpu"
                   ∧ (lastStatus = "none" ∨ lastStatus = "running")
                then ["completed"] else []))
    ∧ (∀ (store : Store) (avail : BackendAvailability),
        jsOrNone store.webgpuLastStatus = "completed" →
        (sessionStart store avail).store = store
        ∧ (sessionStart store avail).availability = avail
        ∧ (sessionStart store avail).alertShown = false) := by
  refine ⟨?_, ?_, ?_, ?_, ?_⟩
  · intro store avail
    by_cases hw : avail.status.webgpu = true
    · by_cases hrc : jsOrNone store.webgpuLastStatus = "running"
          ∨ jsOrNone store.webgpuLastStatus = "crashed"
      · have hres := sessionStart_store_crashed store avail hw hrc
        rw [hres]
        rcases hrc with h | h
        · exact Or.inr (Or.inr (Or.inr ⟨h, rfl⟩))
        · exact Or.inl (by rw [h]; rfl)
      · exact Or.inl (by rw [(sessionStart_store_id store avail (Or.inr (not_or.mp hrc))).1])
    · exact Or.inl (by
        rw [(sessionStart_store_id store avail (Or.inl (Bool.eq_false_iff.mpr hw))).1])
  · intro store avail hne hcr
    by_cases hw : avail.status.webgpu = true
    · by_cases hrc : jsOrNone store.webgpuLastStatus = "running"
          ∨ jsOrNone store.webgpuLastStatus = "crashed"
      · rcases hrc with h | h
        · exact h
        · exact absurd h hne
      · rw [(sessionStart_store_id store avail (Or.inr (not_or.mp hrc))).1] at hcr
        exact absurd hcr hne
    · rw [(sessionStart_store_id store avail (Or.inl (Bool.eq_false_iff.mpr hw))).1] at hcr
      exact absurd hcr hne
  · intro store lastStatus backendName runOk hsync
    by_cases hb : backendName = "webgpu"
    · have hl : jsOrNone store.webgpuLastStatus = lastStatus := (hsync hb).symm
      rw [hl]
      by_cases hn : lastStatus = "none"
      · cases runOk <;>
          simp [predict, allowedPath, allowedEdge, hb, hn]
      · by_cases hr : lastStatus = "running"
        · cases runOk <;>
            simp [predict, allowedPath, allowedEdge, hb, hn, hr]
        · cases runOk <;>
            simp [predict, allowedPath, allowedEdge, hb, hn, hr]
    · cases runOk <;> simp [predict, allowedPath, hb]
  · intro store lastStatus backendName runOk
    by_cases hb : backendName = "webgpu"
    · by_cases hn : lastStatus = "none"
      · cases runOk <;> simp [predict, hb, hn]
      · by_cases hr : lastStatus = "running"
        · cases runOk <;> simp [predict, hb, hn, hr]
        · cases runOk <;> simp [predict, hb, hn, hr]
    · cases runOk <;> simp [predict, hb]
  · intro store avail hc
    refine sessionStart_store_id store avail (Or.inr ⟨?_, ?_⟩)
    · rw [hc]; decide
    · rw [hc]; decide

/-- Witness for C6 at concrete inputs: an armed-and-completed predict from
a fresh store yields the path of writes running then completed; a session
observing running afterwards reads a status of running; a session that
starts at completed leaves the store unchanged. -/
theorem crash_status_transition_witness :
    allowedPath "none"
        (predict { webgpuLastStatus := Option.none, flagWebgpuDisabledAlert := Option.none }
          "none" "webgpu" true).writes
    ∧ jsOrNone (Store.mk (some "running") Option.none).webgpuLastStatus = "running"
    ∧ (sessionStart { webgpuLastStatus := some "completed", flagWebgpuDisabledAlert := Option.none }
        { status := { webgpu := true, webassembly := true, fallback := true }
          defaultOrder := ["webgpu", "webassembly", "fallback"] }).store
      = { webgpuLastStatus := some "completed", flagWebgpuDisabledAlert := Option.none } :=
  ⟨crash_status_transition_invariant.2.2.1
      { webgpuLastStatus := Option.none, flagWebgpuDisabledAlert := Option.none }
      "none" "webgpu" true (fun _ => rfl),
   crash_status_transition_invariant.2.1
      { webgpuLastStatus := some "running", flagWebgpuDisabledAlert := Option.none }
      { status := { webgpu := true, webassembly := true, fallback := true }
        defaultOrder := ["webgpu", "webassembly", "fallback"] }
      (by decide) (by decide),
   (crash_status_transition_invariant.2.2.2.2
      { webgpuLastStatus := some "completed", flagWebgpuDisabledAlert := Option.none }
      { status := { webgpu := true, webassembly := true, fallback := true }
        defaultOrder := ["webgpu", "webassembly", "fallback"] }
      (by decide)).1⟩

/-- Helper: when webgpu is available, the default order starts with
webgpu and its tail never contains webgpu. -/
lemma defaultOrder_webgpu_head (env : Env) (hw : env.available "webgpu" = true) :
    (getBackendAvailability env).defaultOrder
      = "webgpu" :: (["webassembly", "fallback"]).filter
          (fun k => statusGet (getBackendAvailability env).status k) := by
  simp only [getBackendAvailability]
  rw [List.filter_cons_of_pos (by simp [statusGet, hw])]

/-- Helper: webgpu is not among the remaining candidate kinds. -/
lemma webgpu_not_mem_tail (p : String → Bool) :
    "webgpu" ∉ (["webassembly", "fallback"]).filter p := by
  intro hmem
  have h := List.mem_of_mem_filter hmem
  exact absurd h (by decide)

/-- Helper: splicing out the head at its own index. -/
lemma spliceRemove_head (a : String) (t : List String) :
    spliceRemove (a :: t) (jsIndexOf (a :: t) a) = t := by
  have h0 : jsIndexOf (a :: t) a = 0 := by
    simp [jsIndexOf, List.indexOf_cons_self]
  rw [h0]
  simp [spliceRemove]

/-- C7: a session that starts while the persisted GPU status reads running
and webgpu is available disables webgpu in the availability status, splices
webgpu out of defaultOrder, persists crashed, and shows the alert exactly
when the separate one-time flag is unset; afterwards the flag is set, so
any later session start shows no alert. -/
theorem session_start_running_marks_crash :
    ∀ (env : Env) (store : Store),
      env.available "webgpu" = true →
      jsOrNone store.webgpuLastStatus = "running" →
      ((sessionStart store (getBackendAvailability env)).availability.status.webgpu = false
       ∧ "webgpu" ∉ (sessionStart store (getBackendAvailability env)).availability.defaultOrder
       ∧ (sessionStart store (getBackendAvailability env)).store.webgpuLastStatus = some "crashed"
       ∧ ((sessionStart store (getBackendAvailability env)).alertShown = true
            ↔ jsTruthy store.flagWebgpuDisabledAlert = false)
       ∧ jsTruthy (sessionStart store (getBackendAvailability env)).store.flagWebgpuDisabledAlert = true
       ∧ (∀ avail2 : BackendAvailability,
            (sessionStart (sessionStart store (getBackendAvailability env)).store avail2).alertShown
              = false)) := by
  intro env store hw hrun
  have hw' : (getBackendAvailability env).status.webgpu = true := hw
  have hrc : jsOrNone store.webgpuLastStatus = "running"
      ∨ jsOrNone store.webgpuLastStatus = "crashed" := Or.inl hrun
  have hun : sessionStart store (getBackendAvailability env) =
      { store :=
          (if (! jsTruthy store.flagWebgpuDisabledAlert) = true then
            { webgpuLastStatus := some "crashed", flagWebgpuDisabledAlert := some "1" }
          else { store with webgpuLastStatus := some "crashed" })
        availability :=
          { status := { (getBackendAvailability env).status with webgpu := false }
            defaultOrder := spliceRemove (getBackendAvailability env).defaultOrder
              (jsIndexOf (getBackendAvailability env).defaultOrder "webgpu") }
        lastStatus := jsOrNone store.webgpuLastStatus
        alertShown := ! jsTruthy store.flagWebgpuDisabledAlert } := by
    simp only [sessionStart, hw', if_true, hrc]
  have horder : spliceRemove (getBackendAvailability env).defaultOrder
      (jsIndexOf (getBackendAvailability env).defaultOrder "webgpu")
      = (["webassembly", "fallback"]).filter
          (fun k => statusGet (getBackendAvailability env).status k) := by
    rw [defaultOrder_webgpu_head env hw, spliceRemove_head]
  have hflag : jsTruthy (sessionStart store (getBackendAvailability env)).store.flagWebgpuDisabledAlert = true := by
    rw [hun]
    by_cases hf : jsTruthy store.flagWebgpuDisabledAlert = true
    · have hnc : ¬ ((! jsTruthy store.flagWebgpuDisabledAlert) = true) := by simp [hf]
      rw [if_neg hnc]
      exact hf
    · have hf' : jsTruthy store.flagWebgpuDisabledAlert = false := Bool.eq_false_iff.mpr hf
      have hc : (! jsTruthy store.flagWebgpuDisabledAlert) = true := by simp [hf']
      rw [if_pos hc]
      rfl
  refine ⟨?_, ?_, ?_, ?_, hflag, ?_⟩
  · rw [hun]
  · rw [hun]
    show "webgpu" ∉ spliceRemove _ _
    rw [horder]
    exact webgpu_not_mem_tail _
  · rw [hun]
    by_cases hf : (! jsTruthy store.flagWebgpuDisabledAlert) = true
    · rw [if_pos hf]
    · rw [if_neg hf]
  · rw [hun]
    simp
  · intro avail2
    exact sessionStart_no_alert_when_flagged _ avail2 hflag

/-- Witness for C7: a fully capable environment and a store persisting
running with the alert flag unset. -/
theorem session_start_running_marks_crash_witness :
    ((sessionStart { webgpuLastStatus := some "running", flagWebgpuDisabledAlert := Option.none }
        (getBackendAvailability
          { available := fun _ => true, initOk := fun _ => true, loadOk := fun _ => true })).availability.status.webgpu
        = false
     ∧ "webgpu" ∉ (sessionStart { webgpuLastStatus := some "running", flagWebgpuDisabledAlert := Option.none }
        (getBackendAvailability
          { available := fun _ => true, initOk := fun _ => true, loadOk := fun _ => true })).availability.defaultOrder
     ∧ (sessionStart { webgpuLastStatus := some "running", flagWebgpuDisabledAlert := Option.none }
        (getBackendAvailability
          { available := fun _ => true, initOk := fun _ => true, loadOk := fun _ => true })).store.webgpuLastStatus
        = some "crashed") := by
  have h := session_start_running_marks_crash
    { available := fun _ => true, initOk := fun _ => true, loadOk := fun _ => true }
    { webgpuLastStatus := some "running", flagWebgpuDisabledAlert := Option.none }
    rfl (by decide)
  exact ⟨h.1, h.2.1, h.2.2.1⟩

/-- Witness for C5: in an environment without webgpu support, webgpu is
absent from defaultOrder. -/
theorem getBackendAvailability_defaultOrder_witness :
    "webgpu" ∉ (getBackendAvailability
        { available := fun b => b != "webgpu", initOk := fun _ => true, loadOk := fun _ => true }).defaultOrder :=
  (getBackendAvailability_defaultOrder_spec
     { available := fun b => b != "webgpu", initOk := fun _ => true, loadOk := fun _ => true }).2.1
    "webgpu" (by decide)
